import Mathlib

/-!
Verification development for the pysct repository (src/pysct/core.py).

The Python source is shallowly embedded: each method of the classes
`XsctServer`, `Xsct` and `Vivado` becomes a pure Lean function over explicit
state.  Byte streams are modelled as decoded text (`String`), the socket as a
list of received chunks, the pseudo-terminal capture (`childProc.before`) as a
`String` field of an explicit process-handle record.  Python exceptions are
modelled by dedicated result constructors (`pyXil` for `PyXilException`,
`attrErrorNone` for the untyped `AttributeError` raised when a method is
called on the `None` process handle, `indexError` for an out-of-range `[0]`
index, `valueError` for `ValueError`).
-/

/-- `xsct_line_end` from core.py: the fixed XSCT line terminator, always
the Windows-style two byte sequence CR LF. -/
def xsct_line_end : String := "\r\n"

/-- Default TCP port, `PORT = 4567` in core.py. -/
def PORT : Nat := 4567

/-- Splitter on the two-character sequence CR LF over character lists.
This implements the semantics of the Python call `s.split('\r\n')`
(non-overlapping leftmost splitting; an empty input yields one empty
segment, a trailing separator yields a trailing empty segment). -/
def splitCRLF : List Char → List (List Char)
  | [] => [[]]
  | '\r' :: '\n' :: rest => [] :: splitCRLF rest
  | c :: rest =>
    match splitCRLF rest with
    | s :: ss => (c :: s) :: ss
    | [] => [[c]]

/-- The Python expression `ans.split(xsct_line_end)` on strings. -/
def pySplitLineEnd (s : String) : List String :=
  (splitCRLF s.data).map (fun l => String.mk l)

/-- The Python operation `s.startswith(pre)` (character-wise prefix test). -/
def pyStartswith (s pre : String) : Bool :=
  pre.data.isPrefixOf s.data

/-- The Python slice `s[n:]` on text (by code points). -/
def pySliceFrom (s : String) (n : Nat) : String :=
  String.mk (s.data.drop n)

namespace Xsct

/-- The state of the local variable `ans` inside `Xsct.recv`'s `while` loop.
In the Python source `ans` starts as the string `''`, but the statement
`ans = ans.split(xsct_line_end)` re-binds it to a *list* of strings, so on
later iterations `ans` holds a list: the embedding mirrors this by carrying
either a string or a list of strings. -/
inductive RecvState where
  | strS : String → RecvState
  | listS : List String → RecvState
  deriving DecidableEq

/-- Outcome of a call on the socket client `Xsct`:
`ok` is a normal return value, `pyXil` a raised `PyXilException` carrying its
message, `attrError` the untyped `AttributeError` raised when `.split` is
invoked on a list, and `blocked` stands for the call blocking forever on
`socket.recv` because the modelled chunk stream is exhausted. -/
inductive Reply where
  | ok : String → Reply
  | pyXil : String → Reply
  | attrError : Reply
  | blocked : Reply
  deriving DecidableEq

/-- One pass of the body of the `while True` loop of `Xsct.recv`, iterated
over the successive chunks delivered by `socket.recv`:
`ans += data.decode("utf-8")`, then `ans = ans.split(xsct_line_end)`, then
`if len(ans) > 1: return ans[0]`.  When `ans` is already a list (second and
later iterations without an early return), `ans += data` extends the list
with the characters of `data` and the subsequent `ans.split` call raises
`AttributeError` (`'list' object has no attribute 'split'`), modelled by
`.attrError`. -/
def recvLoop : RecvState → List String → Reply
  | _, [] => .blocked
  | .strS s, data :: rest =>
    let parts := pySplitLineEnd (s ++ data)
    if parts.length > 1 then .ok (parts.headD "")
    else recvLoop (.listS parts) rest
  | .listS _, _ :: _ => .attrError

/-- `Xsct.recv`: receive from the socket, modelled over the list of chunks
successively returned by `socket.recv`.  The local accumulator starts as the
empty string. -/
def recv (chunks : List String) : Reply :=
  recvLoop (.strS "") chunks

/-- The classification step at the end of `Xsct.do`:
`okay`-prefixed answers return `ans[5:]`, `error`-prefixed answers raise
`PyXilException(ans[6:])`, anything else raises
`PyXilException('Illegal start-string in protocol. Answer is: ' + ans)`. -/
def classify (ans : String) : Reply :=
  if pyStartswith ans "okay" then .ok (pySliceFrom ans 5)
  else if pyStartswith ans "error" then .pyXil (pySliceFrom ans 6)
  else .pyXil ("Illegal start-string in protocol. Answer is: " ++ ans)

/-- The bytes `Xsct.do` sends for a command: the command with the line
terminator appended. -/
def sentBytes (command : String) : String :=
  command ++ xsct_line_end

/-- `Xsct.do` seen from the response side: receives one answer through
`recv` over the delivered chunk stream and classifies it. -/
def do_cmd (chunks : List String) : Reply :=
  match recv chunks with
  | .ok ans => classify ans
  | .pyXil m => .pyXil m
  | .attrError => .attrError
  | .blocked => .blocked

/-- Events issued on the underlying socket by `Xsct.connect`. -/
inductive SockEvent where
  | create : SockEvent
  | connectCall : String → Nat → SockEvent
  | settimeout : Nat → SockEvent
  deriving DecidableEq

/-- The exact event sequence of `Xsct.connect(host, port, timeout)`:
create the socket, call `connect`, and only afterwards — and only when
`timeout` is not `None` — call `settimeout`. -/
def connect_trace (host : String) (port : Nat) (timeout : Option Nat) : List SockEvent :=
  [.create, .connectCall host port] ++
    (match timeout with
     | some t => [.settimeout t]
     | none => [])

/-- Replay a socket event trace, recording the timeout configured on the
socket at the moment each `connect` call runs.  A freshly created socket is
in blocking mode with no timeout configured (`none`). -/
def timeoutsAtConnectCalls : Option Nat → List SockEvent → List (Option Nat)
  | _, [] => []
  | _, .create :: r => timeoutsAtConnectCalls none r
  | cur, .connectCall _ _ :: r => cur :: timeoutsAtConnectCalls cur r
  | _, .settimeout t :: r => timeoutsAtConnectCalls (some t) r

/-- Replay a socket event trace and return the timeout configured on the
socket when the trace is over, i.e. the timeout governing all subsequent
send/receive operations. -/
def finalTimeout : Option Nat → List SockEvent → Option Nat
  | cur, [] => cur
  | _, .create :: r => finalTimeout none r
  | cur, .connectCall _ _ :: r => finalTimeout cur r
  | _, .settimeout t :: r => finalTimeout (some t) r

end Xsct

namespace XsctServer

/-- The launch command line built by `XsctServer.start_server`. -/
def start_command (exe : String) (port : Nat) : String :=
  exe ++ " -eval \"xsdbserver start -port " ++ toString port ++ "\" -interactive"

/-- `XsctServer.start_server`: raises `ValueError` when the executable or
the port is `None`, otherwise spawns the process with the built command
line (the spawn is modelled by returning the command line). -/
def start_server (exe : Option String) (port : Option Nat) : Except String String :=
  match exe, port with
  | some e, some p => .ok (start_command e p)
  | _, _ => .error "xsct_executable and port must be non None."

/-- `XsctServer.__init__`: sets `_xsct_server = None`, then calls
`start_server` whenever the executable **or** the port is not `None`.
Returns the spawn command when a process is started, `none` when the
constructor leaves the launcher inactive, and propagates `ValueError`. -/
def init (exe : Option String) (port : Option Nat) : Except String (Option String) :=
  if exe.isSome || port.isSome then (start_server exe port).map some
  else .ok none

/-- Constructing `XsctServer()` with all default arguments:
`xsct_executable=None`, `port=PORT`. -/
def init_defaults : Except String (Option String) :=
  init none (some PORT)

end XsctServer

/-- The apostrophe character (code point 39), used in console messages. -/
def apostropheChar : Char := Char.ofNat 39

/-- Literal substring search over character lists: whether `pat` occurs
contiguously inside `s`.  This is the semantics of the Python call
`re.search(pat, s)` for the literal (metacharacter-free) patterns the
source registers. -/
def containsPattern (pat : List Char) : List Char → Bool
  | [] => pat.isPrefixOf []
  | c :: rest => pat.isPrefixOf (c :: rest) || containsPattern pat rest

/-- The Python `str.splitlines` / `bytes.splitlines` splitter over character
lists: a line ends at `\r\n`, at a lone `\r`, or at a lone `\n`; a trailing
terminator does not produce a final empty line.  (The exotic additional
terminators Python accepts for `str`, such as form feed, do not occur in the
texts this code handles.)  `acc` holds the current line, reversed. -/
def splitlinesAux : List Char → List Char → List String
  | [], acc => if acc.isEmpty then [] else [String.mk acc.reverse]
  | '\r' :: '\n' :: rest, acc => String.mk acc.reverse :: splitlinesAux rest []
  | '\r' :: rest, acc => String.mk acc.reverse :: splitlinesAux rest []
  | '\n' :: rest, acc => String.mk acc.reverse :: splitlinesAux rest []
  | c :: rest, acc => splitlinesAux rest (c :: acc)

/-- The Python expression `s.splitlines()`. -/
def pySplitlines (s : String) : List String :=
  splitlinesAux s.data []

/-- `os.linesep` on the POSIX platforms the module targets at runtime
(on Windows it would be `"\r\n"`; the claims under study are
platform-independent in shape and are settled for the POSIX value). -/
def os_linesep : String := "\n"

namespace Vivado

/-- The state of a spawned pseudo-terminal child process as far as the
`Vivado` client observes it: whether it has terminated, the captured text
`childProc.before` preceding the last prompt match, and the exit status
`childProc.wait()` would report. -/
structure ChildProc where
  terminated : Bool
  before : String
  exitCode : Nat
  deriving DecidableEq

/-- Result of a `Vivado` method call.
`ok` is a normal return; `pyXil` a raised `PyXilException` with its message;
`attrErrorNone` the untyped `AttributeError` raised when an attribute such as
`terminated` or `expect` is accessed on the `None` process handle of a
fake-mode client; `indexError` the untyped `IndexError` from indexing an
empty list. -/
inductive PyRes (α : Type) where
  | ok : α → PyRes α
  | pyXil : String → PyRes α
  | attrErrorNone : PyRes α
  | indexError : PyRes α
  deriving DecidableEq

/-- `Vivado.__init__`: `childProc` stays `None` when the executable is
`None` (fake run); otherwise `expect.spawn` produces a live child process,
whose observable state `spawned` is supplied by the environment. -/
def init (executable : Option String) (spawned : ChildProc) : Option ChildProc :=
  match executable with
  | none => none
  | some _ => some spawned

/-- `Vivado.waitStartup`: calls `self.childProc.expect(prompt)`.  On a
fake-mode client (`childProc = None`) the attribute access raises
`AttributeError`. -/
def waitStartup (cp : Option ChildProc) : PyRes Unit :=
  match cp with
  | none => .attrErrorNone
  | some _ => .ok ()

/-- The answer post-processing of `Vivado.do` when `native_answer` is not
requested: `os.linesep.join(ans.splitlines()[1:-1])` — the captured text
with its first and last lines removed, re-joined with the platform line
separator. -/
def stripAnswer (ans : String) : String :=
  String.intercalate os_linesep (((pySplitlines ans).drop 1).dropLast)

/-- `Vivado.do`: the terminal-channel execute primitive.

* `cp` is the process handle (`None` for a fake-mode client);
* `before` of the handle is the text `expect` captured before the prompt;
* `errmsgs` are the registered error patterns, modelled as literal
  substring matchers (the only pattern the source registers is a literal);
* `wait_prompt` and `native_answer` mirror the keyword arguments.

On a fake-mode client the access `self.childProc.terminated` raises the
untyped `AttributeError`.  On a terminated process it raises
`PyXilException`.  Otherwise, without `wait_prompt` it returns `None`;
with `wait_prompt` it raises `PyXilException` when an error pattern matches
the captured text, else returns the captured text raw (`native_answer`) or
stripped of its first and last lines. -/
def do_cmd (cp : Option ChildProc) (cmd : String) (wait_prompt : Bool)
    (errmsgs : List String) (native_answer : Bool) : PyRes (Option String) :=
  match cp with
  | none => .attrErrorNone
  | some c =>
    if c.terminated then
      .pyXil "The process has been terminated. Sending command is not possible."
    else if wait_prompt then
      if errmsgs.any (fun em => containsPattern em.data c.before.data) then
        .pyXil ("during running command: " ++ cmd ++ c.before)
      else if native_answer then .ok (some c.before)
      else .ok (some (stripAnswer c.before))
    else .ok none

/-- The error message `Vivado.get_var` registers for a missing variable:
`can't read "<varname>": no such variable`. -/
def no_var_msg (varname : String) : String :=
  "can" ++ String.mk [apostropheChar] ++ "t read \"" ++ varname ++ "\": no such variable"

/-- `Vivado.get_var`: `puts $<varname>` with the missing-variable error
pattern registered. -/
def get_var (cp : Option ChildProc) (varname : String) : PyRes (Option String) :=
  do_cmd cp ("puts $" ++ varname) true [no_var_msg varname] false

/-- `Vivado.set_var`: `set <varname> <value>` with no error patterns. -/
def set_var (cp : Option ChildProc) (varname value : String) : PyRes (Option String) :=
  do_cmd cp ("set " ++ varname ++ " " ++ value) true [] false

/-- `Vivado.get_property`: runs `get_property <prop> <object>` through `do`,
then takes the raw captured text `childProc.before`, keeps its non-empty
lines, and returns element `[0]` of that list — an untyped `IndexError`
when every captured line is empty. -/
def get_property (cp : Option ChildProc) (propName objectName : String) : PyRes String :=
  match cp, do_cmd cp ("get_property " ++ propName ++ " " ++ objectName) true [] false with
  | _, .pyXil m => .pyXil m
  | _, .attrErrorNone => .attrErrorNone
  | _, .indexError => .indexError
  | none, .ok _ => .attrErrorNone
  | some c, .ok _ =>
    match (pySplitlines c.before).filter (fun x => !x.isEmpty) with
    | v :: _ => .ok v
    | [] => .indexError

/-- `Vivado.set_property`: runs `set_property <prop> <value> <object>`
through `do` and returns nothing. -/
def set_property (cp : Option ChildProc) (propName value objectName : String) : PyRes Unit :=
  match do_cmd cp ("set_property " ++ propName ++ " " ++ value ++ " " ++ objectName)
      true [] false with
  | .ok _ => .ok ()
  | .pyXil m => .pyXil m
  | .attrErrorNone => .attrErrorNone
  | .indexError => .indexError

/-- `Vivado.exit`: `None` handle — return `None` (no-op); already
terminated — log a warning and return `None`; otherwise send the `exit`
command without waiting for a prompt and return the process's exit status
from `wait()`.  The boolean records whether the `exit` command was sent. -/
def exit (cp : Option ChildProc) : PyRes (Option Nat) × Bool :=
  match cp with
  | none => (.ok none, false)
  | some c =>
    if c.terminated then (.ok none, false)
    else (.ok (some c.exitCode), true)

end Vivado

/-- An operating-system process together with the tree of processes it
transitively spawned, identified by pids. -/
inductive PTree where
  | node : Nat → List PTree → PTree

/-- The pid at the root of a process tree. -/
def PTree.pid : PTree → Nat
  | .node p _ => p

/-- The immediate children of the root of a process tree. -/
def PTree.children : PTree → List PTree
  | .node _ cs => cs

/-- Number of nodes of a forest of process trees. -/
def forestSize : List PTree → Nat
  | [] => 0
  | .node _ cs :: ts => 1 + forestSize cs + forestSize ts

/-- The enumeration `psutil.Process.children(recursive=True)` performs,
decorated with depths: a breadth-first walk of the forest `f` whose roots
sit at depth `d` — the roots of `f` in order, then, recursively, the level
below them.  (psutil's implementation keeps a queue `checkpids`, appending
each discovered child's own children behind all processes of the current
level, which yields exactly this level order.) -/
def bfsD (d : Nat) (f : List PTree) : List (Nat × Nat) :=
  match f with
  | [] => []
  | t :: ts =>
    ((t :: ts).map (fun u => (d, u.pid))) ++ bfsD (d + 1) ((t :: ts).flatMap PTree.children)
termination_by forestSize f
decreasing_by
  simp_wf
  have happ : ∀ a b : List PTree, forestSize (a ++ b) = forestSize a + forestSize b := by
    intro a b
    induction a with
    | nil => simp [forestSize]
    | cons x xs ih =>
      cases x with
      | node p cs => simp [forestSize, ih]; omega
  have key : ∀ g : List PTree, forestSize (g.flatMap PTree.children) + g.length = forestSize g := by
    intro g
    induction g with
    | nil => rfl
    | cons x xs ih =>
      cases x with
      | node p cs =>
        simp [forestSize, List.flatMap_cons, happ, PTree.children] at ih ⊢
        omega
  have hk := key (t :: ts)
  simp only [List.flatMap_cons, List.length_cons] at hk
  omega

namespace XsctServer

/-- `psutil.Process(pid).children(recursive=True)` for the tracked process
whose spawn tree is `t`: all proper descendants, in breadth-first order. -/
def psutil_children (t : PTree) : List Nat :=
  (bfsD 1 t.children).map Prod.snd

/-- The breadth-first descendant enumeration decorated with each process's
depth below the tracked process, in the order the kill loop of
`stop_server` walks it (`reversed(children)`). -/
def killOrderD (t : PTree) : List (Nat × Nat) :=
  (bfsD 1 t.children).reverse

/-- The pids `stop_server` sends `SIGTERM` to, in order: nothing when no
process is tracked (`_xsct_server` falsy) or when `poll()` reports the
process already exited; otherwise the recursively enumerated descendants,
reversed. -/
def stop_kills (alive : Bool) (t : PTree) (s : Option Nat) : List Nat :=
  match s with
  | none => []
  | some _ => if alive then (psutil_children t).reverse else []

/-- The value of `_xsct_server` after `stop_server` returns: cleared when
the process was alive (and has been killed and, when requested, waited
for), untouched otherwise. -/
def stop_newState (alive : Bool) (s : Option Nat) : Option Nat :=
  match s with
  | none => none
  | some p => if alive then none else some p

/-- The polling wait loop of `stop_server(wait=True)`:
`poll(); while poll is None: sleep(.1); poll()` — given the sequence of
successive `poll()` results, the loop returns at the first index where
`poll()` reports an exit status.  Totality requires the process to
eventually exit (hypothesis `h`); when it never does, the real loop blocks
forever. -/
def pollWait (polls : Nat → Option Nat) (h : ∃ n, (polls n).isSome) : Nat :=
  Nat.find h

end XsctServer

/-- `t` is a subtree of the forest `f` whose root sits `d` levels below the
roots of `f`. -/
inductive SubAt : List PTree → Nat → PTree → Prop where
  | here {f : List PTree} {t : PTree} : t ∈ f → SubAt f 0 t
  | there {f : List PTree} {t u : PTree} {d : Nat} :
      t ∈ f → SubAt t.children d u → SubAt f (d + 1) u

/-- Pid `p` occurs at depth `d` in the forest `f`. -/
def AtDepth (f : List PTree) (d : Nat) (p : Nat) : Prop :=
  ∃ t, SubAt f d t ∧ t.pid = p

/-- In the forest `f`, the node with pid `u` at depth `du` has the node
with pid `v` at depth `dv` as a proper descendant. -/
def Desc (f : List PTree) (du u dv v : Nat) : Prop :=
  ∃ t s d, SubAt f du t ∧ t.pid = u ∧ SubAt t.children d s ∧ s.pid = v ∧ dv = du + d + 1

/-- The fake trees and poll traces used by concrete witnesses. -/
def tree3 : PTree := .node 1 [.node 2 [.node 3 []]]

/-- A poll trace in which the tracked process is observed alive twice and
then reports exit status 0. -/
def polls3 : Nat → Option Nat := fun n => if n < 2 then none else some 0

/-! ## Helper lemmas -/

theorem polls3_exits : ∃ n, (polls3 n).isSome :=
  ⟨2, rfl⟩

theorem forestSize_append (a b : List PTree) :
    forestSize (a ++ b) = forestSize a + forestSize b := by
  induction a with
  | nil => simp [forestSize]
  | cons x xs ih =>
    cases x with
    | node p cs => simp [forestSize, ih]; omega

theorem forestSize_flatMap_children (g : List PTree) :
    forestSize (g.flatMap PTree.children) + g.length = forestSize g := by
  induction g with
  | nil => rfl
  | cons x xs ih =>
    cases x with
    | node p cs =>
      simp [forestSize, List.flatMap_cons, forestSize_append, PTree.children] at ih ⊢
      omega

theorem forestSize_flatMap_lt (t : PTree) (ts : List PTree) :
    forestSize ((t :: ts).flatMap PTree.children) < forestSize (t :: ts) := by
  have hk := forestSize_flatMap_children (t :: ts)
  simp only [List.length_cons] at hk
  omega

theorem bfsD_nil (d : Nat) : bfsD d [] = [] := by
  simp [bfsD]

theorem bfsD_cons (d : Nat) (t : PTree) (ts : List PTree) :
    bfsD d (t :: ts) =
      ((t :: ts).map (fun u => (d, u.pid))) ++
        bfsD (d + 1) ((t :: ts).flatMap PTree.children) := by
  rw [bfsD]

theorem bfsD_mono : ∀ {f : List PTree}, ∀ {g : List PTree},
    (∀ t, t ∈ f → t ∈ g) → ∀ {d : Nat} {x : Nat × Nat}, x ∈ bfsD d f → x ∈ bfsD d g
  | [], _, _, _, x, hx => by
    rw [bfsD_nil] at hx
    exact absurd hx (List.not_mem_nil x)
  | t :: ts, g, hsub, d, x, hx => by
    rw [bfsD_cons] at hx
    rcases List.mem_append.mp hx with hmem | hrec
    · rcases List.mem_map.mp hmem with ⟨u, hu, hux⟩
      have hug : u ∈ g := hsub u hu
      cases g with
      | nil => exact absurd hug (List.not_mem_nil u)
      | cons r rs =>
        rw [bfsD_cons]
        exact List.mem_append_left _ (List.mem_map.mpr ⟨u, hug, hux⟩)
    · have hsub2 : ∀ u, u ∈ (t :: ts).flatMap PTree.children →
          u ∈ g.flatMap PTree.children := by
        intro u hu
        rcases List.mem_flatMap.mp hu with ⟨v, hv, huv⟩
        exact List.mem_flatMap.mpr ⟨v, hsub v hv, huv⟩
      have hres := bfsD_mono hsub2 hrec
      cases g with
      | nil => exact absurd (hsub t (List.mem_cons_self t ts)) (List.not_mem_nil t)
      | cons r rs =>
        rw [bfsD_cons]
        exact List.mem_append_right _ hres
termination_by f => forestSize f
decreasing_by
  exact forestSize_flatMap_lt t ts

theorem bfsD_depth_le : ∀ {f : List PTree} {d : Nat} {x : Nat × Nat},
    x ∈ bfsD d f → d ≤ x.1
  | [], d, x, hx => by
    rw [bfsD_nil] at hx
    exact absurd hx (List.not_mem_nil x)
  | t :: ts, d, x, hx => by
    rw [bfsD_cons] at hx
    rcases List.mem_append.mp hx with hmem | hrec
    · rcases List.mem_map.mp hmem with ⟨u, _, hux⟩
      simp [← hux]
    · have := bfsD_depth_le hrec
      omega
termination_by f => forestSize f
decreasing_by
  exact forestSize_flatMap_lt t ts

theorem bfsD_pairwise : ∀ {f : List PTree} {d : Nat},
    (bfsD d f).Pairwise (fun a b => a.1 ≤ b.1)
  | [], d => by
    rw [bfsD_nil]
    exact List.Pairwise.nil
  | t :: ts, d => by
    rw [bfsD_cons]
    refine List.pairwise_append.mpr ⟨?_, bfsD_pairwise, ?_⟩
    · refine List.pairwise_map.mpr ?_
      have htriv : ∀ (l : List PTree), List.Pairwise (fun _ _ => d ≤ d) l := by
        intro l
        induction l with
        | nil => exact List.Pairwise.nil
        | cons a l ih => exact List.Pairwise.cons (fun _ _ => le_refl d) ih
      exact htriv (t :: ts)
    · intro a ha b hb
      rcases List.mem_map.mp ha with ⟨u, _, hux⟩
      have hd : d + 1 ≤ b.1 := bfsD_depth_le hb
      simp [← hux]
      omega
termination_by f => forestSize f
decreasing_by
  exact forestSize_flatMap_lt t ts

theorem subAt_mem_bfsD {f : List PTree} {dep : Nat} {t : PTree}
    (h : SubAt f dep t) : ∀ d0 : Nat, (d0 + dep, t.pid) ∈ bfsD d0 f := by
  induction h with
  | here hmem =>
    intro d0
    rename_i f' t'
    cases f' with
    | nil => exact absurd hmem (List.not_mem_nil t')
    | cons r rs =>
      rw [bfsD_cons]
      exact List.mem_append_left _ (List.mem_map.mpr ⟨t', hmem, by simp⟩)
  | there hmem hsub ih =>
    intro d0
    rename_i f' t' u dep'
    have hchild : ∀ v, v ∈ t'.children → v ∈ f'.flatMap PTree.children := by
      intro v hv
      exact List.mem_flatMap.mpr ⟨t', hmem, hv⟩
    have hmem2 : (d0 + 1 + dep', u.pid) ∈ bfsD (d0 + 1) (f'.flatMap PTree.children) :=
      bfsD_mono hchild (ih (d0 + 1))
    cases f' with
    | nil => exact absurd hmem (List.not_mem_nil t')
    | cons r rs =>
      rw [bfsD_cons]
      refine List.mem_append_right _ ?_
      have harith : d0 + 1 + dep' = d0 + (dep' + 1) := by omega
      rwa [harith] at hmem2

theorem desc_depth_lt {f : List PTree} {du u dv v : Nat}
    (h : Desc f du u dv v) : du < dv := by
  rcases h with ⟨_, _, d, _, _, _, _, hdv⟩
  omega

theorem killOrderD_antitone (t : PTree) :
    (XsctServer.killOrderD t).Pairwise (fun a b => b.1 ≤ a.1) := by
  unfold XsctServer.killOrderD
  exact List.pairwise_reverse.mpr bfsD_pairwise

theorem classify_okay (d : Char) (rest : String) :
    Xsct.classify ("okay" ++ String.mk [d] ++ rest) = .ok rest := rfl

theorem classify_error_marker (d : Char) (rest : String) :
    Xsct.classify ("error" ++ String.mk [d] ++ rest) = .pyXil rest := rfl

theorem classify_illegal (ans : String)
    (h1 : pyStartswith ans "okay" = false) (h2 : pyStartswith ans "error" = false) :
    Xsct.classify ans = .pyXil ("Illegal start-string in protocol. Answer is: " ++ ans) := by
  simp [Xsct.classify, h1, h2]

/-! ## Claims -/

/-- Claim C1 (code_bug).  The spec says `recv` blocks until the accumulated
bytes contain the line terminator and then returns the first complete
terminator-delimited segment, regardless of how the stream is split across
individual socket reads.  The code only does this when the first chunk
already contains the terminator: on any later iteration the accumulator has
been re-bound to a list by `ans = ans.split(xsct_line_end)`, and the next
`ans.split` call raises the untyped `AttributeError`.  First conjunct: the
single-chunk case works as specified.  Second conjunct: the same byte
stream delivered in two chunks, the first without a terminator, crashes
instead of returning `"abcd"`. -/
theorem C1_recv_crashes_on_split_chunks :
    Xsct.recv ["abcd" ++ xsct_line_end] = .ok "abcd" ∧
    Xsct.recv ["ab", "cd" ++ xsct_line_end] = .attrError := by
  constructor
  · decide
  · decide

/-- Claim C4 (confirmed).  Whenever the terminator-delimited response
segment delivered for a command is the success marker `okay` followed by a
single delimiter character and a payload, `Xsct.do` returns exactly the
payload, unmodified (`ans[5:]` drops precisely the four marker characters
and the one delimiter). -/
theorem C4_do_okay_returns_payload (chunks : List String) (d : Char) (rest : String)
    (h : Xsct.recv chunks = .ok ("okay" ++ String.mk [d] ++ rest)) :
    Xsct.do_cmd chunks = .ok rest := by
  unfold Xsct.do_cmd
  rw [h]
  exact classify_okay d rest

/-- Witness for C4 at a concrete exchange: the server answers
`okay 5` CR LF and `do` returns `"5"`. -/
theorem C4_witness : Xsct.do_cmd ["okay 5" ++ xsct_line_end] = .ok "5" :=
  C4_do_okay_returns_payload ["okay 5" ++ xsct_line_end] ' ' "5" (by decide)

/-- Claim C5 (confirmed).  First conjunct: a response beginning with the
failure marker `error` plus one delimiter character makes `Xsct.do` raise
`PyXilException` whose message is exactly the remaining text (`ans[6:]`).
Second conjunct: a response that starts with neither `okay` nor `error`
makes `Xsct.do` raise `PyXilException` (with the fixed protocol-violation
message), regardless of the response's content. -/
theorem C5_do_error_and_illegal (chunks chunks2 : List String) (d : Char) (rest ans : String)
    (h1 : Xsct.recv chunks = .ok ("error" ++ String.mk [d] ++ rest))
    (h2 : Xsct.recv chunks2 = .ok ans)
    (h3 : pyStartswith ans "okay" = false)
    (h4 : pyStartswith ans "error" = false) :
    Xsct.do_cmd chunks = .pyXil rest ∧
    Xsct.do_cmd chunks2 = .pyXil ("Illegal start-string in protocol. Answer is: " ++ ans) := by
  constructor
  · unfold Xsct.do_cmd
    rw [h1]
    exact classify_error_marker d rest
  · unfold Xsct.do_cmd
    rw [h2]
    exact classify_illegal ans h3 h4

/-- Witness for C5 at concrete exchanges: the server answers
`error boom` CR LF (message `"boom"` is raised) and `huh` CR LF (protocol
violation raised). -/
theorem C5_witness :
    Xsct.do_cmd ["error boom" ++ xsct_line_end] = .pyXil "boom" ∧
    Xsct.do_cmd ["huh" ++ xsct_line_end] =
      .pyXil ("Illegal start-string in protocol. Answer is: " ++ "huh") :=
  C5_do_error_and_illegal ["error boom" ++ xsct_line_end] ["huh" ++ xsct_line_end]
    ' ' "boom" "huh" (by decide) (by decide) (by decide) (by decide)

/-- Claim C8 (confirmed).  `XsctServer()` with all default arguments is
never an inactive launcher: since `port` defaults to the non-null `PORT`,
the constructor's condition `(xsct_executable is not None) or (port is not
None)` holds and `start_server` is invoked, which raises `ValueError`
because the executable is `None` — and likewise for every non-null port
value. -/
theorem C8_init_defaults_raises_valueError :
    XsctServer.init_defaults = .error "xsct_executable and port must be non None." ∧
    ∀ p : Nat, XsctServer.init none (some p) =
      .error "xsct_executable and port must be non None." := by
  exact ⟨rfl, fun p => rfl⟩

/-- Claim C9 (confirmed).  In `Xsct.connect` the caller-supplied timeout is
installed by `settimeout` only after the `connect` call has completed: the
one `connect` call in the trace runs on a socket with no timeout configured
(fresh sockets are in plain blocking mode), and after the trace the
configured timeout — governing subsequent send/receive operations — equals
the caller's argument. -/
theorem C9_connect_timeout_installed_after_connect
    (host : String) (port : Nat) (timeout : Option Nat) :
    Xsct.timeoutsAtConnectCalls none (Xsct.connect_trace host port timeout) = [none] ∧
    Xsct.finalTimeout none (Xsct.connect_trace host port timeout) = timeout := by
  cases timeout with
  | none => exact ⟨rfl, rfl⟩
  | some t => exact ⟨rfl, rfl⟩

/-- Counterexample for claim C2.  For captured text `"\nset a 5\n5\n% "`
the claim asserts the returned value is exactly `"5"`; the code strips the
first line (here the empty line before the echo) and the last line (here
`"% "`), returning `"set a 5\n5"`, not `"5"`. -/
theorem C2_counterexample :
    Vivado.do_cmd (some ⟨false, "\nset a 5\n5\n% ", 0⟩) "set a 5" true [] false ≠
      .ok (some "5") := by
  decide

/-- Claim C2 as amended (corrected).  For a live terminal-channel execute
call with `wait_prompt` and without `rawAnswer`, the returned text is the
captured text with its first and its last line removed, the kept lines
re-joined with the platform line separator: whenever the captured text
splits into a first line `f`, middle lines `mid` and a last line `l`, the
call returns exactly `mid` joined by `os.linesep`.  In particular, for
captured text `"\nset a 5\n5\n% "` the returned value is
`"set a 5" ++ os.linesep ++ "5"` — not `"5"` as the claim stated. -/
theorem C2_amended_strip_first_and_last_line (cmd before : String) (ec : Nat)
    (f l : String) (mid : List String)
    (hsplit : pySplitlines before = f :: (mid ++ [l])) :
    Vivado.do_cmd (some ⟨false, before, ec⟩) cmd true [] false =
      .ok (some (String.intercalate os_linesep mid)) ∧
    Vivado.do_cmd (some ⟨false, "\nset a 5\n5\n% ", 0⟩) "set a 5" true [] false =
      .ok (some ("set a 5" ++ os_linesep ++ "5")) := by
  constructor
  · simp [Vivado.do_cmd, Vivado.stripAnswer, hsplit, List.dropLast_concat]
  · decide

/-- Witness for the amended C2 at the scenario's concrete capture. -/
theorem C2_witness :
    Vivado.do_cmd (some ⟨false, "\nset a 5\n5\n% ", 0⟩) "set a 5" true [] false =
      .ok (some (String.intercalate os_linesep ["set a 5", "5"])) :=
  (C2_amended_strip_first_and_last_line "set a 5" "\nset a 5\n5\n% " 0
    "" "% " ["set a 5", "5"] (by decide)).1

/-- Counterexample for claim C3.  The claim says every operation on a
fake-mode client (null executable) is a no-op or raises the typed
`NotSpawnedError` and never an untyped error.  In the code no
`NotSpawnedError` exists at all, and `do` on such a client evaluates
`self.childProc.terminated` with `childProc = None`, raising the untyped
`AttributeError` (modelled by `attrErrorNone`). -/
theorem C3_counterexample :
    Vivado.do_cmd (Vivado.init none ⟨false, "", 0⟩) "pid" true [] false =
      .attrErrorNone := by
  decide

/-- Claim C3 as amended (corrected).  Constructing the terminal client with
a null executable spawns no process (`childProc = None`).  `exit` is then a
no-op returning `None`, but every other operation — `waitStartup`,
`do` (with or without prompt waiting), `get_var`, `set_var`,
`get_property`, `set_property` — raises the **untyped** `AttributeError`
from accessing an attribute of the `None` handle; no typed
`NotSpawnedError` exists in the code. -/
theorem C3_amended_fake_mode_attribute_error (c : Vivado.ChildProc)
    (cmd varname value propName objectName : String) :
    Vivado.init none c = none ∧
    Vivado.waitStartup (Vivado.init none c) = .attrErrorNone ∧
    Vivado.do_cmd (Vivado.init none c) cmd true [] false = .attrErrorNone ∧
    Vivado.do_cmd (Vivado.init none c) cmd false [] true = .attrErrorNone ∧
    Vivado.get_var (Vivado.init none c) varname = .attrErrorNone ∧
    Vivado.set_var (Vivado.init none c) varname value = .attrErrorNone ∧
    Vivado.get_property (Vivado.init none c) propName objectName = .attrErrorNone ∧
    Vivado.set_property (Vivado.init none c) propName value objectName = .attrErrorNone ∧
    Vivado.exit (Vivado.init none c) = (.ok none, false) :=
  ⟨rfl, rfl, rfl, rfl, rfl, rfl, rfl, rfl, rfl⟩

/-- Claim C6 (confirmed).  `stop_server` is idempotent: with no tracked
process it returns immediately, killing nothing and leaving the (absent)
handle unchanged; after any first `stop_server` call, a second call kills
nothing — either the handle was cleared (process was alive and has been
killed), or it was left in place exactly because the process had already
been observed dead, and a dead process stays dead (hypothesis `hdead`).
Likewise `Vivado.exit` on an already-terminated client returns `None`
without raising and without sending the exit command again. -/
theorem C6_stop_idempotent (alive1 alive2 : Bool) (t1 t2 : PTree) (s : Option Nat)
    (hdead : (XsctServer.stop_newState alive1 s).isSome → alive2 = false)
    (c : Vivado.ChildProc) (hterm : c.terminated = true) :
    XsctServer.stop_kills alive1 t1 none = [] ∧
    XsctServer.stop_newState alive1 none = none ∧
    XsctServer.stop_kills alive2 t2 (XsctServer.stop_newState alive1 s) = [] ∧
    Vivado.exit (some c) = (.ok none, false) := by
  refine ⟨rfl, rfl, ?_, ?_⟩
  · cases s with
    | none => rfl
    | some p =>
      cases halive : alive1 with
      | true => simp [XsctServer.stop_newState, XsctServer.stop_kills]
      | false =>
        have h2 : alive2 = false := hdead (by simp [XsctServer.stop_newState, halive])
        simp [XsctServer.stop_newState, XsctServer.stop_kills, h2, halive]
  · simp [Vivado.exit, hterm]

/-- Witness for C6: first stop on a live tracked process clears the handle,
so the second call kills nothing; `exit` on a terminated client is inert. -/
theorem C6_witness :
    XsctServer.stop_kills true (.node 1 []) none = [] ∧
    XsctServer.stop_newState true none = none ∧
    XsctServer.stop_kills true (.node 1 []) (XsctServer.stop_newState true (some 7)) = [] ∧
    Vivado.exit (some ⟨true, "", 0⟩) = (.ok none, false) :=
  C6_stop_idempotent true true (.node 1 []) (.node 1 []) (some 7) (by decide)
    ⟨true, "", 0⟩ rfl

/-- Claim C10 (confirmed).  On a live client, `get_property` returns the
first non-blank line of the raw captured text preceding the prompt match
(the `find?` reformulation of the code's filter-then-index), and indexing
is in bounds exactly when some captured line is non-blank: when every
captured line is blank (or the capture is empty) the call fails with the
unguarded, untyped `IndexError` rather than a typed failure. -/
theorem C10_get_property_first_nonblank (c : Vivado.ChildProc) (h : c.terminated = false)
    (propName objectName : String) :
    Vivado.get_property (some c) propName objectName =
      (match (pySplitlines c.before).find? (fun x => !x.isEmpty) with
       | some v => Vivado.PyRes.ok v
       | none => Vivado.PyRes.indexError) ∧
    (Vivado.get_property (some c) propName objectName = .indexError ↔
      ∀ x ∈ pySplitlines c.before, x = "") := by
  have hfind : (pySplitlines c.before).find? (fun x => !x.isEmpty) =
      ((pySplitlines c.before).filter (fun x => !x.isEmpty)).head? :=
    (List.filter_head? _ _).symm
  have h1 : Vivado.get_property (some c) propName objectName =
      (match (pySplitlines c.before).find? (fun x => !x.isEmpty) with
       | some v => Vivado.PyRes.ok v
       | none => Vivado.PyRes.indexError) := by
    cases hf : (pySplitlines c.before).filter (fun x => !x.isEmpty) with
    | nil => simp [Vivado.get_property, Vivado.do_cmd, h, hf, hfind]
    | cons v tl => simp [Vivado.get_property, Vivado.do_cmd, h, hf, hfind]
  refine ⟨h1, ?_⟩
  rw [h1]
  cases hfind2 : (pySplitlines c.before).find? (fun x => !x.isEmpty) with
  | none =>
    simp only []
    constructor
    · intro _ x hx
      have hnx := List.find?_eq_none.mp hfind2 x hx
      have : x.isEmpty = true := by
        cases hxe : x.isEmpty with
        | true => rfl
        | false => exact absurd (by simp [hxe]) hnx
      exact (String.isEmpty_iff x).mp this
    · intro _
      trivial
  | some v =>
    have hv : (!v.isEmpty) = true := by simpa using List.find?_some hfind2
    constructor
    · intro hcontra
      exact absurd hcontra (by simp)
    · intro hall
      have hvmem : v ∈ pySplitlines c.before := List.mem_of_find?_eq_some hfind2
      have hveq : v = "" := hall v hvmem
      rw [hveq] at hv
      exact absurd hv (by decide)

/-- Witness for C10: captured text with a blank first line and one
non-blank line yields that line. -/
theorem C10_witness :
    Vivado.get_property (some ⟨false, "\nfoo\n", 0⟩) "WIDTH" "port0" = .ok "foo" := by
  have h := (C10_get_property_first_nonblank ⟨false, "\nfoo\n", 0⟩ rfl "WIDTH" "port0").1
  rw [h]
  decide

/-- Claim C7 (confirmed).  When `stop_server` runs while the tracked
process is alive, then — with `tree` the tracked process's spawn tree and
`polls` the successive `poll()` results during the wait —

* every descendant of the tracked process, at any depth, receives a
  termination signal (first conjunct);
* the signalled pid list is the depth-decorated kill order with the depths
  erased (second conjunct), and in that kill order an earlier-signalled
  process is never an ancestor of a later-signalled one — every child
  receives its signal before its ancestors (third conjunct);
* with `wait` requested, the polling loop returns exactly at the first
  index where the top-level process's exit status is observable (fourth
  and fifth conjuncts);
* afterwards the tracked handle is cleared (last conjunct). -/
theorem C7_stop_kills_descendants_deepest_first (tree : PTree) (p : Nat)
    (polls : Nat → Option Nat) (h : ∃ n, (polls n).isSome) :
    (∀ dq q, AtDepth tree.children dq q → q ∈ XsctServer.stop_kills true tree (some p)) ∧
    XsctServer.stop_kills true tree (some p) = (XsctServer.killOrderD tree).map Prod.snd ∧
    (∀ i j : Nat, ∀ a b : Nat × Nat, i < j →
      (XsctServer.killOrderD tree)[i]? = some a →
      (XsctServer.killOrderD tree)[j]? = some b →
      ¬ Desc tree.children a.1 a.2 b.1 b.2) ∧
    (polls (XsctServer.pollWait polls h)).isSome ∧
    (∀ m, m < XsctServer.pollWait polls h → polls m = none) ∧
    XsctServer.stop_newState true (some p) = none := by
  refine ⟨?_, ?_, ?_, ?_, ?_, rfl⟩
  · intro dq q hq
    rcases hq with ⟨t, hsub, hpid⟩
    have hmem : (1 + dq, t.pid) ∈ bfsD 1 tree.children := subAt_mem_bfsD hsub 1
    have hq2 : q ∈ (bfsD 1 tree.children).map Prod.snd := by
      refine List.mem_map.mpr ⟨(1 + dq, t.pid), hmem, ?_⟩
      simp [hpid]
    show q ∈ XsctServer.stop_kills true tree (some p)
    simp only [XsctServer.stop_kills, XsctServer.psutil_children, if_true]
    exact List.mem_reverse.mpr hq2
  · simp only [XsctServer.stop_kills, XsctServer.psutil_children,
      XsctServer.killOrderD, if_true, List.map_reverse]
  · intro i j a b hij hia hjb hdesc
    have hpw := killOrderD_antitone tree
    rcases List.getElem?_eq_some_iff.mp hia with ⟨hi, hia2⟩
    rcases List.getElem?_eq_some_iff.mp hjb with ⟨hj, hjb2⟩
    have hle : b.1 ≤ a.1 := by
      have := (List.pairwise_iff_getElem.mp hpw) i j hi hj hij
      rwa [hia2, hjb2] at this
    have hlt : a.1 < b.1 := desc_depth_lt hdesc
    omega
  · exact Nat.find_spec h
  · intro m hm
    have := Nat.find_min h hm
    simpa using this

/-- Witness for C7 on the scenario's depth-3 process tree
(1 spawned 2, which spawned 3) with the process exiting at the third poll:
both descendants are signalled (the model evaluates the kill list to
`[3, 2]`, grandchild first), the wait observes the exit, and the handle is
cleared. -/
theorem C7_witness :
    2 ∈ XsctServer.stop_kills true tree3 (some 1) ∧
    3 ∈ XsctServer.stop_kills true tree3 (some 1) ∧
    (polls3 (XsctServer.pollWait polls3 polls3_exits)).isSome ∧
    XsctServer.stop_newState true (some 1) = none := by
  obtain ⟨hcomp, hmap, hord, hspec, hmin, hclear⟩ :=
    C7_stop_kills_descendants_deepest_first tree3 1 polls3 polls3_exits
  refine ⟨?_, ?_, hspec, hclear⟩
  · refine hcomp 0 2 ⟨.node 2 [.node 3 []], .here ?_, rfl⟩
    show PTree.node 2 [PTree.node 3 []] ∈ tree3.children
    exact List.mem_singleton.mpr rfl
  · refine hcomp 1 3 ⟨.node 3 [], .there (t := PTree.node 2 [PTree.node 3 []]) ?_ (.here ?_), rfl⟩
    · show PTree.node 2 [PTree.node 3 []] ∈ tree3.children
      exact List.mem_singleton.mpr rfl
    · show PTree.node 3 [] ∈ (PTree.node 2 [PTree.node 3 []]).children
      exact List.mem_singleton.mpr rfl
